import Mathlib

/-!
Shallow embedding of the crime-incident CSV normalizer
(src/project2/data/load_db.py together with the schema in
src/project2/data/create_db.py).

Modelling conventions:
* a CSV cell is an `Option String`; `none` is a missing cell (pandas NaN);
* Python `str.strip()` is modelled by `String.trim` (ASCII whitespace);
* `pd.to_numeric(..., errors = coerce)` composed with the later `int(...)`
  cast is modelled by `parseNum`, which parses integer-formatted strings and
  returns `none` on anything unparseable; latitude and longitude are modelled
  through the same integer parser (the claims under study depend only on the
  parse-or-absent structure, not on fractional values);
* SQLite tables are modelled as follows: a dimension table is the list of its
  names in insertion order (the surrogate id of a name is its position plus
  one, matching rowid assignment for an append-only table); the `incidents`
  and `labels` tables are maps from the TEXT primary key to the stored row,
  with INSERT OR REPLACE modelled by `Function.update`.
-/

/-- The fixed violent-category set `VIOLENT_SET` from load_db.py. -/
def VIOLENT_SET : List String :=
  ["Assault", "Robbery", "Sexual Assault", "Homicide",
   "Other Sexual Offense", "Sexual Offense", "SODOMY"]

/-- The byte-order-mark character U+FEFF. -/
def bomChar : Char := Char.ofNat 65279

/-- ASCII apostrophe character. -/
def aposChar : Char := Char.ofNat 39

/-- Right single quotation mark U+2019. -/
def curlyAposChar : Char := Char.ofNat 8217

/-- The byte-order-mark character U+FEFF as a one-character string. -/
def bom : String := String.singleton bomChar

/-- Python str.replace with a one-character pattern and empty replacement:
delete every occurrence of the character. -/
def delChar (a : Char) (s : String) : String :=
  String.mk (s.data.filter (fun c => c ≠ a))

/-- Python str.replace with one-character pattern and one-character
replacement: substitute every occurrence. -/
def swapChar (a b : Char) (s : String) : String :=
  String.mk (s.data.map (fun c => if c = a then b else c))

/-- Drop leading whitespace characters from a character list. -/
def trimLeftChars : List Char → List Char
  | [] => []
  | c :: cs => if c.isWhitespace then trimLeftChars cs else c :: cs

/-- Python str.strip modelled charwise (ASCII whitespace). -/
def strTrim (s : String) : String :=
  String.mk ((trimLeftChars (trimLeftChars s.data).reverse).reverse)

/-- Python str.lower modelled charwise (ASCII case folding). -/
def strToLower (s : String) : String :=
  String.mk (s.data.map Char.toLower)

/-- `norm_col` from load_db.py: normalize a header name (drop BOM, strip,
lowercase, dashes and slashes to spaces, unify apostrophes, spaces to
underscores). -/
def norm_col (c : String) : String :=
  swapChar ' ' '_'
    (swapChar curlyAposChar aposChar
      (swapChar '/' ' '
        (swapChar '-' ' '
          (strToLower (strTrim (delChar bomChar c))))))

/-- `norm_val` from load_db.py: normalize a cell value. `none` (pandas NaN)
stays absent; otherwise strip surrounding whitespace and map the empty string
and the case-insensitive literals nan and none to absent. -/
def norm_val : Option String → Option String
  | none => none
  | some x =>
    let s := strTrim x
    if s = "" ∨ strToLower s = "nan" ∨ strToLower s = "none" then none
    else some s

/-- The dict comprehension building cols_norm_to_orig in main: keys are
normalized header names, values the original headers; on duplicate keys the
later header wins, modelled by searching the reversed header list. -/
def lookupHeader (headers : List String) (key : String) : Option String :=
  headers.reverse.find? (fun h => norm_col h == key)

/-- `find_col` from load_db.py: first candidate whose normalized form occurs
among the normalized headers; returns the original header name. -/
def find_col (headers : List String) (cands : List String) : Option String :=
  cands.findSome? (fun cand => lookupHeader headers (norm_col cand))

/-- The `CANDS` alias table from main, one list per canonical field. -/
def candsIncidentId : List String :=
  ["Incident ID", "incident_id", "incidentid", "objectid", "id"]

def candsCaseNumber : List String :=
  ["Case Number", "case_number", "case_no", "casenumber"]

def candsParentType : List String :=
  ["Parent Incident Type", "parent_incident_type", "parent_type",
   "category", "offense_category"]

def candsIncidentDatetime : List String :=
  ["Incident Datetime", "incident_datetime", "incident_date_time",
   "datetime", "incident_date"]

def candsHourOfDay : List String :=
  ["Hour of Day", "hour_of_day", "hour", "occur_hour"]

def candsDayOfWeek : List String :=
  ["Day of Week", "day_of_week", "weekday", "dow"]

def candsPoliceDistrict : List String :=
  ["Police District", "police_district", "district"]

def candsNeighborhood : List String :=
  ["neighborhood", "Neighborhood", "neighbourhood", "area"]

def candsCouncilDistrict : List String :=
  ["Council District", "council_district", "council"]

def candsZipCode : List String :=
  ["zip_code", "zipcode", "zip", "postal_code"]

def candsLatitude : List String :=
  ["Latitude", "lat", "y"]

def candsLongitude : List String :=
  ["Longitude", "lon", "lng", "x"]

/-- Result of resolving the twelve canonical fields against a header list
(the `resolved` dict in main); each field holds the matched original header,
or `none` when no alias matched. -/
structure ResolvedCols where
  incident_id : Option String
  case_number : Option String
  parent_type : Option String
  incident_datetime : Option String
  hour_of_day : Option String
  day_of_week : Option String
  police_district : Option String
  neighborhood : Option String
  council_district : Option String
  zip_code : Option String
  latitude : Option String
  longitude : Option String
deriving DecidableEq

/-- `resolved = {k: find_col(cols_norm_to_orig, v) for k, v in CANDS.items()}`. -/
def resolveCols (headers : List String) : ResolvedCols :=
  { incident_id := find_col headers candsIncidentId
  , case_number := find_col headers candsCaseNumber
  , parent_type := find_col headers candsParentType
  , incident_datetime := find_col headers candsIncidentDatetime
  , hour_of_day := find_col headers candsHourOfDay
  , day_of_week := find_col headers candsDayOfWeek
  , police_district := find_col headers candsPoliceDistrict
  , neighborhood := find_col headers candsNeighborhood
  , council_district := find_col headers candsCouncilDistrict
  , zip_code := find_col headers candsZipCode
  , latitude := find_col headers candsLatitude
  , longitude := find_col headers candsLongitude }

/-- A source row under the twelve canonical column names (the row after the
`chunk.rename(columns=rename_map)` step); each cell is `none` when the CSV
cell is missing (pandas NaN). -/
structure RawRow where
  incident_id : Option String
  case_number : Option String
  parent_type : Option String
  incident_datetime : Option String
  hour_of_day : Option String
  day_of_week : Option String
  police_district : Option String
  neighborhood : Option String
  council_district : Option String
  zip_code : Option String
  latitude : Option String
  longitude : Option String
deriving DecidableEq

/-- Keep a cell only when its column was resolved; an unresolved column is
materialized as all-None (the `if col not in chunk.columns: chunk[col] = None`
steps in main). -/
def maskCell (resolved : Option String) (v : Option String) : Option String :=
  if resolved.isSome then v else none

/-- Apply `maskCell` fieldwise for one resolved-column table. -/
def maskRow (res : ResolvedCols) (r : RawRow) : RawRow :=
  { incident_id := maskCell res.incident_id r.incident_id
  , case_number := maskCell res.case_number r.case_number
  , parent_type := maskCell res.parent_type r.parent_type
  , incident_datetime := maskCell res.incident_datetime r.incident_datetime
  , hour_of_day := maskCell res.hour_of_day r.hour_of_day
  , day_of_week := maskCell res.day_of_week r.day_of_week
  , police_district := maskCell res.police_district r.police_district
  , neighborhood := maskCell res.neighborhood r.neighborhood
  , council_district := maskCell res.council_district r.council_district
  , zip_code := maskCell res.zip_code r.zip_code
  , latitude := maskCell res.latitude r.latitude
  , longitude := maskCell res.longitude r.longitude }

/-- The three `.map(norm_val)` cleaning steps applied to the key columns
incident_id, case_number and parent_type before the fallback. -/
def cleanKeyCols (r : RawRow) : RawRow :=
  { r with incident_id := norm_val r.incident_id
         , case_number := norm_val r.case_number
         , parent_type := norm_val r.parent_type }

/-- Batch-level identifier fallback from main: when the count of non-null
incident_id cells in the chunk is zero, the whole incident_id column is
replaced by the case_number column; otherwise the chunk is unchanged. -/
def applyFallback (rows : List RawRow) : List RawRow :=
  if rows.countP (fun r => r.incident_id.isSome) = 0 then
    rows.map (fun r => { r with incident_id := r.case_number })
  else rows

/-- The whole-column substitution of the batch-level fallback. -/
def substIdWithCase (r : RawRow) : RawRow :=
  { r with incident_id := r.case_number }

/-- The `.map(norm_val)` cleaning of the six optional string columns. -/
def normOptional (r : RawRow) : RawRow :=
  { r with incident_datetime := norm_val r.incident_datetime
         , day_of_week := norm_val r.day_of_week
         , police_district := norm_val r.police_district
         , neighborhood := norm_val r.neighborhood
         , council_district := norm_val r.council_district
         , zip_code := norm_val r.zip_code }

/-- Row pipeline of main up to the per-row loop: clean the key columns, apply
the batch-level fallback, drop rows missing incident_id or parent_type
(`dropna(subset=[incident_id, parent_type])`), then clean the optional
columns. Only the surviving rows reach the insert loop. -/
def prepRows (rows : List RawRow) : List RawRow :=
  ((applyFallback (rows.map cleanKeyCols)).filter
      (fun r => r.incident_id.isSome && r.parent_type.isSome)).map normOptional

/-- Accumulate decimal digits; `none` as soon as a non-digit appears. -/
def natOfCharsAux : List Char → Nat → Option Nat
  | [], acc => some acc
  | c :: cs, acc =>
    if c.isDigit then natOfCharsAux cs (acc * 10 + (c.toNat - 48)) else none

/-- Parse an optionally signed decimal integer, tolerating surrounding
whitespace. -/
def parseIntStr (s : String) : Option Int :=
  match (strTrim s).data with
  | [] => none
  | c :: cs =>
    if c = '-' then
      match cs with
      | [] => none
      | _ => (natOfCharsAux cs 0).map (fun n => -(n : Int))
    else if c = '+' then
      match cs with
      | [] => none
      | _ => (natOfCharsAux cs 0).map (fun n => (n : Int))
    else (natOfCharsAux (c :: cs) 0).map (fun n => (n : Int))

/-- Model of `pd.to_numeric(..., errors = coerce)` composed with the later
`int(...)` cast in the insert loop, restricted to integer-formatted inputs:
a missing cell or an unparseable string becomes absent, never an error. -/
def parseNum : Option String → Option Int
  | none => none
  | some s => parseIntStr s

/-- Python str(x): a missing value prints as the four-letter text None.
norm_val can never produce that text, so it cannot collide with a real id. -/
def pyStr : Option String → String
  | none => "None"
  | some s => s

/-- The label rule `chunk[violent] = chunk[parent_type].isin(VIOLENT_SET)`
cast to int: 1 exactly when the normalized category is in the fixed set. -/
def violent_label : Option String → Nat
  | none => 0
  | some p => if p ∈ VIOLENT_SET then 1 else 0

/-- A stored fact-table row (the `incidents` INSERT tuple). -/
structure FactRow where
  incident_id : String
  case_number : Option String
  incident_datetime : Option String
  hour_of_day : Option Int
  latitude : Option Int
  longitude : Option Int
  zip_code : Option String
  council_district : Option String
  parent_type_id : Nat
  day_of_week_id : Option Nat
  police_district_id : Option Nat
  neighborhood_id : Option Nat
deriving DecidableEq

/-- A stored label-table row. -/
structure LabelRow where
  incident_id : String
  violent : Nat
deriving DecidableEq

/-- `m.get(v) if v else None`: a falsy (absent) key gives None, otherwise a
dict lookup that may itself miss. -/
def optLookup (m : String → Option Nat) : Option String → Option Nat
  | none => none
  | some v => m v

/-- One iteration of the `for r in chunk.itertuples()` loop: resolve the
parent-type id (the `continue` branch yields `none`), then build the
incidents tuple and the labels tuple. -/
def emitRow (pm dm pdm nm : String → Option Nat) (r : RawRow) :
    Option (FactRow × LabelRow) :=
  match optLookup pm r.parent_type with
  | none => none
  | some pid =>
    some ({ incident_id := pyStr r.incident_id
          , case_number := r.case_number
          , incident_datetime := r.incident_datetime
          , hour_of_day := parseNum r.hour_of_day
          , latitude := parseNum r.latitude
          , longitude := parseNum r.longitude
          , zip_code := r.zip_code
          , council_district := r.council_district
          , parent_type_id := pid
          , day_of_week_id := optLookup dm r.day_of_week
          , police_district_id := optLookup pdm r.police_district
          , neighborhood_id := optLookup nm r.neighborhood }
         , { incident_id := pyStr r.incident_id
           , violent := violent_label r.parent_type })

/-- Insert a string into a ≤-sorted list, keeping it sorted. -/
def insertSorted (x : String) : List String → List String
  | [] => [x]
  | y :: ys => if x ≤ y then x :: y :: ys else y :: insertSorted x ys

/-- Insertion sort on strings, modelling Python sorted(). -/
def sortStrings (l : List String) : List String :=
  l.foldr insertSorted []

/-- `sorted({v for v in values if v is not None})`: the distinct non-null
values of a column, in sorted order. -/
def distinctSorted (values : List (Option String)) : List String :=
  sortStrings (values.filterMap id).dedup

/-- INSERT OR IGNORE of one name into a dimension table (append-only; an
existing name is left untouched). -/
def insertAbsent (d : List String) (v : String) : List String :=
  if v ∈ d then d else d ++ [v]

/-- `upsert_dim` from load_db.py, table part: INSERT OR IGNORE each distinct
non-null value of the batch into the dimension table. -/
def upsert_dim (d : List String) (values : List (Option String)) : List String :=
  (distinctSorted values).foldl insertAbsent d

/-- Position search for `idOf`, carrying the id of the head element. -/
def idxFrom (x : String) : List String → Nat → Option Nat
  | [], _ => none
  | y :: ys, n => if y = x then some n else idxFrom x ys (n + 1)

/-- The name-to-id mapping read back by `upsert_dim` (`SELECT id, name`):
the surrogate id of a name is its position in the append-only table, starting
at 1 as SQLite rowids do. -/
def idOf (d : List String) (x : String) : Option Nat :=
  idxFrom x d 1

/-- The four dimension tables of the star schema. -/
structure Dims where
  parent_types : List String
  day_of_week_dim : List String
  police_district_dim : List String
  neighborhood_dim : List String
deriving DecidableEq

/-- The four `upsert_dim` calls of one batch, over the surviving rows. -/
def upsertAll (D : Dims) (surv : List RawRow) : Dims :=
  { parent_types := upsert_dim D.parent_types (surv.map (fun r => r.parent_type))
  , day_of_week_dim := upsert_dim D.day_of_week_dim (surv.map (fun r => r.day_of_week))
  , police_district_dim :=
      upsert_dim D.police_district_dim (surv.map (fun r => r.police_district))
  , neighborhood_dim :=
      upsert_dim D.neighborhood_dim (surv.map (fun r => r.neighborhood)) }

/-- The insert loop of one batch: run `emitRow` over the surviving rows with
the four reloaded mappings, skipping rows whose parent-type lookup misses. -/
def emitRows (D : Dims) (surv : List RawRow) : List (FactRow × LabelRow) :=
  surv.filterMap
    (emitRow (idOf D.parent_types) (idOf D.day_of_week_dim)
      (idOf D.police_district_dim) (idOf D.neighborhood_dim))

/-- INSERT OR REPLACE of a list of rows into a table keyed by a TEXT primary
key, modelled as repeated pointwise map update (last write wins). -/
def storeAll {α : Type} (key : α → String) (m : String → Option α)
    (ws : List α) : String → Option α :=
  ws.foldl (fun m w => Function.update m (key w) (some w)) m

/-- Whole database state: four dimension tables plus the two keyed tables. -/
structure DBState where
  dims : Dims
  incidents : String → Option FactRow
  labels : String → Option LabelRow

/-- The empty database right after create_db.py. -/
def initState : DBState :=
  { dims := ⟨[], [], [], []⟩
  , incidents := fun _ => none
  , labels := fun _ => none }

/-- The batch writes of one chunk from state `s`: upsert the dimensions of
the surviving rows, then emit fact/label tuples against the reloaded
mappings. -/
def chunkWrites (s : DBState) (rows : List RawRow) : List (FactRow × LabelRow) :=
  emitRows (upsertAll s.dims (prepRows rows)) (prepRows rows)

/-- Process one renamed chunk: dimension upserts followed by the
INSERT OR REPLACE of the emitted fact and label rows. -/
def processRows (s : DBState) (rows : List RawRow) : DBState :=
  { dims := upsertAll s.dims (prepRows rows)
  , incidents :=
      storeAll (fun f => f.incident_id) s.incidents
        ((chunkWrites s rows).map Prod.fst)
  , labels :=
      storeAll (fun l => l.incident_id) s.labels
        ((chunkWrites s rows).map Prod.snd) }

/-- A chunk as read from the CSV: its header row and its rows, the latter
already keyed by the canonical field each cell would be renamed to. -/
structure Chunk where
  headers : List String
  rows : List RawRow

/-- Errors of the loader. The source raises ValueError for the two schema
failures; the spec names this failure mode SchemaError. -/
inductive LoadError where
  | schemaError : String → LoadError
deriving DecidableEq

/-- The rows of a chunk after the rename/ensure-columns steps: a cell whose
canonical column was not resolved is absent. -/
def maskedRows (c : Chunk) : List RawRow :=
  c.rows.map (maskRow (resolveCols c.headers))

/-- Process one chunk: the two schema checks of main (category column
present; at least one of the identifier columns present), then the row
pipeline. -/
def processChunk (s : DBState) (c : Chunk) : Except LoadError DBState :=
  if (resolveCols c.headers).parent_type = none then
    .error (.schemaError "Could not find Parent Incident Type column.")
  else if (resolveCols c.headers).incident_id = none ∧
          (resolveCols c.headers).case_number = none then
    .error (.schemaError
      "Could not find Incident ID or Case Number column (need one as primary key).")
  else
    .ok (processRows s (maskedRows c))

/-- The chunk loop of main: process chunks in order; the first schema error
aborts the run, leaving the state of the already-committed chunks and
processing none of the remaining chunks. -/
def runFile (s : DBState) : List Chunk → DBState × Option LoadError
  | [] => (s, none)
  | c :: cs =>
    match processChunk s c with
    | .error e => (s, some e)
    | .ok s' => runFile s' cs

/-- Constant mapping used by concrete witnesses. -/
def oneMap : String → Option Nat := fun _ => some 1

/-- Empty mapping used by concrete witnesses. -/
def noneMap : String → Option Nat := fun _ => none

/-- A concrete all-absent row, base of the witness rows. -/
def blankRow : RawRow :=
  { incident_id := none, case_number := none, parent_type := none
  , incident_datetime := none, hour_of_day := none, day_of_week := none
  , police_district := none, neighborhood := none, council_district := none
  , zip_code := none, latitude := none, longitude := none }

/-- Witness row: a well-formed violent incident. -/
def w1row : RawRow :=
  { blankRow with incident_id := some "A1", parent_type := some "Assault" }

/-- Witness row: a non-violent category never seen before. -/
def w2row : RawRow :=
  { blankRow with incident_id := some "A2", parent_type := some "Burglary" }

/-- Witness row: null identifier, populated case number. -/
def wNullIdRow : RawRow :=
  { blankRow with case_number := some "CN1", parent_type := some "Assault" }

/-- Witness row: out-of-range hour and unparseable latitude. -/
def w9row : RawRow :=
  { blankRow with incident_id := some "X9", parent_type := some "Assault",
                  hour_of_day := some "99", latitude := some "abc" }

/-- Witness chunk whose headers resolve the identifier and category fields. -/
def wChunk : Chunk := ⟨["Incident ID", "Parent Incident Type"], [w1row]⟩

/-- Witness chunk with an unresolvable category column. -/
def badChunk : Chunk := ⟨["foo"], []⟩

/-- Witness chunk that resolves the category but neither identifier column. -/
def badChunk2 : Chunk := ⟨["category"], []⟩

/-- Is a loader result a schema error? -/
def isSchemaError : Except LoadError DBState → Bool
  | .error (.schemaError _) => true
  | .ok _ => false

/-- The error component of a loader result. -/
def errOf : Except LoadError DBState → Option LoadError
  | .error e => some e
  | .ok _ => none

/-- Chunk-list view of the run: process renamed chunks left to right. -/
def runRows (s : DBState) (l : List (List RawRow)) : DBState :=
  l.foldl processRows s

/-- A chunk whose schema checks pass (category column resolved, and at least
one of the two identifier columns resolved). -/
def goodChunk (c : Chunk) : Prop :=
  ¬(resolveCols c.headers).parent_type = none ∧
  ¬((resolveCols c.headers).incident_id = none ∧
    (resolveCols c.headers).case_number = none)

/-- All writes of a run, chunk by chunk, each computed against the dimension
tables as they stood when that chunk was processed. -/
def writesList (s : DBState) : List (List RawRow) → List (FactRow × LabelRow)
  | [] => []
  | rows :: l => chunkWrites s rows ++ writesList (processRows s rows) l

/-- All writes of a run computed against one fixed dimension state. -/
def fixedWrites (D : Dims) : List (List RawRow) → List (FactRow × LabelRow)
  | [] => []
  | rows :: l => emitRows D (prepRows rows) ++ fixedWrites D l

/-- Every dimension value referenced by a surviving row is present in `D`. -/
def Covered (D : Dims) (surv : List RawRow) : Prop :=
  (∀ r ∈ surv, ∀ p, r.parent_type = some p → p ∈ D.parent_types) ∧
  (∀ r ∈ surv, ∀ p, r.day_of_week = some p → p ∈ D.day_of_week_dim) ∧
  (∀ r ∈ surv, ∀ p, r.police_district = some p → p ∈ D.police_district_dim) ∧
  (∀ r ∈ surv, ∀ p, r.neighborhood = some p → p ∈ D.neighborhood_dim)

/-- `E` extends each dimension table of `D` at the end (append-only growth). -/
def DimsExt (D E : Dims) : Prop :=
  (∃ u, E.parent_types = D.parent_types ++ u) ∧
  (∃ u, E.day_of_week_dim = D.day_of_week_dim ++ u) ∧
  (∃ u, E.police_district_dim = D.police_district_dim ++ u) ∧
  (∃ u, E.neighborhood_dim = D.neighborhood_dim ++ u)

/-- Every chunk's surviving dimension values are covered by `D`. -/
def AllCovered (D : Dims) (l : List (List RawRow)) : Prop :=
  ∀ rows ∈ l, Covered D (prepRows rows)

/-! ### Helper lemmas -/

theorem normOptional_incident_id (r : RawRow) :
    (normOptional r).incident_id = r.incident_id := rfl

theorem normOptional_case_number (r : RawRow) :
    (normOptional r).case_number = r.case_number := rfl

theorem normOptional_parent_type (r : RawRow) :
    (normOptional r).parent_type = r.parent_type := rfl

theorem emitRow_inv {pm dm pdm nm : String → Option Nat} {r : RawRow}
    {f : FactRow} {lb : LabelRow}
    (h : emitRow pm dm pdm nm r = some (f, lb)) :
    f.incident_id = pyStr r.incident_id ∧
    f.case_number = r.case_number ∧
    f.hour_of_day = parseNum r.hour_of_day ∧
    f.latitude = parseNum r.latitude ∧
    f.longitude = parseNum r.longitude ∧
    lb.incident_id = pyStr r.incident_id ∧
    lb.violent = violent_label r.parent_type ∧
    optLookup pm r.parent_type = some f.parent_type_id := by
  unfold emitRow at h
  cases hl : optLookup pm r.parent_type with
  | none => rw [hl] at h; cases h
  | some pid =>
    rw [hl] at h
    injection h with h
    injection h with h1 h2
    subst h1; subst h2
    exact ⟨rfl, rfl, rfl, rfl, rfl, rfl, rfl, rfl⟩

/-! ### Claim theorems -/

/-- C1: the stored label of an emitted row whose normalized category is
non-null is 1 exactly when the category string is (case-sensitively) one of
the seven fixed violent category names, and 0 for every other non-null
category. -/
theorem claim1_label_rule (pm dm pdm nm : String → Option Nat) (r : RawRow)
    (f : FactRow) (lb : LabelRow) (cat : String)
    (hcat : r.parent_type = some cat)
    (h : emitRow pm dm pdm nm r = some (f, lb)) :
    (lb.violent = 1 ↔ cat ∈ VIOLENT_SET) ∧
    (cat ∉ VIOLENT_SET → lb.violent = 0) := by
  have hv := (emitRow_inv h).2.2.2.2.2.2.1
  rw [hcat] at hv
  simp only [violent_label] at hv
  by_cases hm : cat ∈ VIOLENT_SET
  · rw [if_pos hm] at hv
    exact ⟨⟨fun _ => hm, fun _ => hv⟩, fun hc => absurd hm hc⟩
  · rw [if_neg hm] at hv
    refine ⟨⟨fun h1 => ?_, fun hc => absurd hc hm⟩, fun _ => hv⟩
    rw [hv] at h1
    cases h1

theorem claim1_witness :
    (emitRow oneMap noneMap noneMap noneMap w1row =
       some ({ incident_id := "A1", case_number := none
             , incident_datetime := none, hour_of_day := none
             , latitude := none, longitude := none, zip_code := none
             , council_district := none, parent_type_id := 1
             , day_of_week_id := none, police_district_id := none
             , neighborhood_id := none }, { incident_id := "A1", violent := 1 })) ∧
    ((1 : Nat) = 1 ↔ "Assault" ∈ VIOLENT_SET) ∧
    (emitRow oneMap noneMap noneMap noneMap w2row =
       some ({ incident_id := "A2", case_number := none
             , incident_datetime := none, hour_of_day := none
             , latitude := none, longitude := none, zip_code := none
             , council_district := none, parent_type_id := 1
             , day_of_week_id := none, police_district_id := none
             , neighborhood_id := none }, { incident_id := "A2", violent := 0 })) ∧
    ((0 : Nat) = 1 ↔ "Burglary" ∈ VIOLENT_SET) :=
  ⟨rfl,
   (claim1_label_rule oneMap noneMap noneMap noneMap w1row _ _ "Assault" rfl rfl).1,
   rfl,
   (claim1_label_rule oneMap noneMap noneMap noneMap w2row _ _ "Burglary" rfl rfl).1⟩

/-- C5: column reconciliation resolves headers against the ordered alias
lists up to the norm_col normalization; Incident ID, incident_id and objectid
all resolve the identifier field, Lat and Latitude both resolve latitude, the
byte-order mark is removed, dashes and slashes collapse to underscores, and
curly apostrophes are unified with straight ones; when several aliases match,
the earliest alias in the candidate list wins. -/
theorem claim5_column_aliases :
    find_col ["Incident ID"] candsIncidentId = some "Incident ID" ∧
    find_col ["incident_id"] candsIncidentId = some "incident_id" ∧
    find_col ["objectid"] candsIncidentId = some "objectid" ∧
    find_col ["Lat"] candsLatitude = some "Lat" ∧
    find_col ["Latitude"] candsLatitude = some "Latitude" ∧
    norm_col (bom ++ "Incident ID") = "incident_id" ∧
    norm_col "  PARENT/Incident-Type " = "parent_incident_type" ∧
    norm_col ("Officer" ++ String.singleton curlyAposChar ++ "s Area")
      = "officer" ++ String.singleton aposChar ++ "s_area" ∧
    find_col ["objectid", "Incident ID"] candsIncidentId = some "Incident ID" := by
  refine ⟨?_, ?_, ?_, ?_, ?_, ?_, ?_, ?_, ?_⟩ <;> decide

/-- C7 counterexample: value normalization does not strip a leading
byte-order mark; the BOM-prefixed category survives unchanged instead of
being reduced to the bare category name. -/
theorem claim7_counterexample :
    norm_val (some (bom ++ "Assault")) = some (bom ++ "Assault") ∧
    some (bom ++ "Assault") ≠ some "Assault" := by
  refine ⟨?_, ?_⟩ <;> decide

/-- C7 amended: for every string-typed value, normalization strips
surrounding whitespace (but no byte-order-mark artifacts) and maps the empty
string and the case-insensitive literals nan and none to absent; every other
string is kept in stripped form, and an absent cell stays absent. -/
theorem claim7_value_normalization (s : String) :
    norm_val none = none ∧
    (strTrim s = "" → norm_val (some s) = none) ∧
    (strToLower (strTrim s) = "nan" → norm_val (some s) = none) ∧
    (strToLower (strTrim s) = "none" → norm_val (some s) = none) ∧
    (strTrim s ≠ "" → strToLower (strTrim s) ≠ "nan" →
      strToLower (strTrim s) ≠ "none" → norm_val (some s) = some (strTrim s)) := by
  refine ⟨rfl, fun h => ?_, fun h => ?_, fun h => ?_, fun h1 h2 h3 => ?_⟩
  · simp only [norm_val]
    rw [if_pos (Or.inl h)]
  · simp only [norm_val]
    rw [if_pos (Or.inr (Or.inl h))]
  · simp only [norm_val]
    rw [if_pos (Or.inr (Or.inr h))]
  · simp only [norm_val]
    rw [if_neg]
    intro hc
    rcases hc with hc | hc | hc
    · exact h1 hc
    · exact h2 hc
    · exact h3 hc

theorem claim7_witness :
    norm_val (some "   ") = none ∧
    norm_val (some " NaN ") = none ∧
    norm_val (some "NONE") = none ∧
    norm_val (some " Theft ") = some "Theft" :=
  ⟨(claim7_value_normalization "   ").2.1 (by decide),
   (claim7_value_normalization " NaN ").2.2.1 (by decide),
   (claim7_value_normalization "NONE").2.2.2.1 (by decide),
   (claim7_value_normalization " Theft ").2.2.2.2 (by decide) (by decide) (by decide)⟩

/-- C9: numeric fields pass through the permissive parser unchanged: the
stored hour is exactly the parsed hour with no clamping to [0, 23] and no
rejection, and an unparseable numeric cell is stored as absent while the row
is still emitted. -/
theorem claim9_numeric_passthrough (pm dm pdm nm : String → Option Nat)
    (r : RawRow) (f : FactRow) (lb : LabelRow)
    (h : emitRow pm dm pdm nm r = some (f, lb)) :
    f.hour_of_day = parseNum r.hour_of_day ∧
    f.latitude = parseNum r.latitude ∧
    f.longitude = parseNum r.longitude ∧
    (∀ str, r.hour_of_day = some str → parseIntStr str = none →
      f.hour_of_day = none) ∧
    (∀ str, r.latitude = some str → parseIntStr str = none →
      f.latitude = none) := by
  obtain ⟨-, -, h3, h4, h5, -, -, -⟩ := emitRow_inv h
  refine ⟨h3, h4, h5, fun str hs hp => ?_, fun str hs hp => ?_⟩
  · rw [h3, hs]
    simpa [parseNum] using hp
  · rw [h4, hs]
    simpa [parseNum] using hp

theorem claim9_witness :
    (emitRow oneMap noneMap noneMap noneMap w9row =
       some ({ incident_id := "X9", case_number := none
             , incident_datetime := none, hour_of_day := some 99
             , latitude := none, longitude := none, zip_code := none
             , council_district := none, parent_type_id := 1
             , day_of_week_id := none, police_district_id := none
             , neighborhood_id := none }, { incident_id := "X9", violent := 1 })) ∧
    (some (99 : Int) = parseNum w9row.hour_of_day) ∧
    (none = parseNum w9row.latitude) ∧
    ((none : Option Int) = none) :=
  ⟨rfl,
   (claim9_numeric_passthrough oneMap noneMap noneMap noneMap w9row _ _ rfl).1,
   (claim9_numeric_passthrough oneMap noneMap noneMap noneMap w9row _ _ rfl).2.1,
   (claim9_numeric_passthrough oneMap noneMap noneMap noneMap w9row _ _ rfl).2.2.2.2
     "abc" rfl rfl⟩

theorem mem_prepRows {r : RawRow} {rows : List RawRow} (h : r ∈ prepRows rows) :
    ∃ r₁ ∈ applyFallback (rows.map cleanKeyCols),
      r = normOptional r₁ ∧ r₁.incident_id.isSome ∧ r₁.parent_type.isSome := by
  unfold prepRows at h
  obtain ⟨r₁, h1, rfl⟩ := List.mem_map.1 h
  obtain ⟨h2, h3⟩ := List.mem_filter.1 h1
  simp only [Bool.and_eq_true] at h3
  exact ⟨r₁, h2, rfl, h3.1, h3.2⟩

/-- C2: every surviving row has a non-null identifier and a non-null
category, and every emitted fact row originates from such a surviving row,
its stored identifier being that row's (non-null) identifier; rows nulled in
either field are filtered out before the insert loop and are never stored. -/
theorem claim2_nonnull_invariant (s : DBState) (rows : List RawRow) :
    (∀ r ∈ prepRows rows, r.incident_id.isSome ∧ r.parent_type.isSome) ∧
    (∀ w ∈ chunkWrites s rows, ∃ r ∈ prepRows rows,
      r.incident_id = some w.1.incident_id ∧ r.parent_type.isSome) := by
  constructor
  · intro r hr
    obtain ⟨r₁, -, rfl, h1, h2⟩ := mem_prepRows hr
    exact ⟨h1, h2⟩
  · intro w hw
    unfold chunkWrites emitRows at hw
    obtain ⟨r, hr, he⟩ := List.mem_filterMap.1 hw
    have hinv := emitRow_inv (show emitRow _ _ _ _ r = some (w.1, w.2) from he)
    obtain ⟨r₁, -, rfl, h1, h2⟩ := mem_prepRows hr
    refine ⟨normOptional r₁, hr, ?_, h2⟩
    rw [hinv.1]
    obtain ⟨v, hv⟩ := Option.isSome_iff_exists.1 h1
    rw [show (normOptional r₁).incident_id = r₁.incident_id from rfl, hv]
    rfl

theorem claim2_witness :
    (normOptional (cleanKeyCols w1row)).incident_id.isSome ∧
    (normOptional (cleanKeyCols w1row)).parent_type.isSome :=
  (claim2_nonnull_invariant initState [w1row]).1 _ (by decide)

/-- C3: when a batch has zero non-null primary identifiers after cleaning,
the whole identifier column is replaced by the case-number column, so every
emitted fact row's identifier equals that row's case number; when at least
one primary identifier is non-null, no row of the batch is substituted. -/
theorem claim3_batch_fallback (s : DBState) (rows : List RawRow)
    (h : (rows.map cleanKeyCols).countP (fun r => r.incident_id.isSome) = 0) :
    applyFallback (rows.map cleanKeyCols)
      = (rows.map cleanKeyCols).map substIdWithCase ∧
    (∀ w ∈ chunkWrites s rows, w.1.case_number = some w.1.incident_id) ∧
    (∀ rows2 : List RawRow,
      rows2.countP (fun r => r.incident_id.isSome) ≠ 0 →
        applyFallback rows2 = rows2) := by
  have hfb : applyFallback (rows.map cleanKeyCols)
      = (rows.map cleanKeyCols).map substIdWithCase := by
    unfold applyFallback substIdWithCase
    rw [if_pos h]
  refine ⟨hfb, ?_, ?_⟩
  · intro w hw
    unfold chunkWrites emitRows at hw
    obtain ⟨r, hr, he⟩ := List.mem_filterMap.1 hw
    have hinv := emitRow_inv (show emitRow _ _ _ _ r = some (w.1, w.2) from he)
    obtain ⟨r₁, hr1, rfl, h1, h2⟩ := mem_prepRows hr
    rw [hfb] at hr1
    obtain ⟨r₂, -, rfl⟩ := List.mem_map.1 hr1
    obtain ⟨v, hv⟩ := Option.isSome_iff_exists.1 h1
    have hc : (normOptional (substIdWithCase r₂)).case_number = some v := by
      rw [show (normOptional (substIdWithCase r₂)).case_number
            = (substIdWithCase r₂).incident_id from rfl]
      exact hv
    have hi : (normOptional (substIdWithCase r₂)).incident_id = some v := hv
    rw [hinv.2.1, hinv.1, hc, hi]
    rfl
  · intro rows2 hne
    unfold applyFallback
    rw [if_neg hne]

theorem claim3_witness :
    (applyFallback ([wNullIdRow].map cleanKeyCols)
       = ([wNullIdRow].map cleanKeyCols).map substIdWithCase) ∧
    (({ incident_id := "CN1", case_number := some "CN1"
      , incident_datetime := none, hour_of_day := none, latitude := none
      , longitude := none, zip_code := none, council_district := none
      , parent_type_id := 1, day_of_week_id := none
      , police_district_id := none, neighborhood_id := none } : FactRow).case_number
       = some "CN1") ∧
    applyFallback [w1row] = [w1row] :=
  ⟨(claim3_batch_fallback initState [wNullIdRow] (by decide)).1,
   (claim3_batch_fallback initState [wNullIdRow] (by decide)).2.1
     ({ incident_id := "CN1", case_number := some "CN1"
      , incident_datetime := none, hour_of_day := none, latitude := none
      , longitude := none, zip_code := none, council_district := none
      , parent_type_id := 1, day_of_week_id := none
      , police_district_id := none, neighborhood_id := none },
      { incident_id := "CN1", violent := 1 }) (by decide),
   (claim3_batch_fallback initState [wNullIdRow] (by decide)).2.2 [w1row] (by decide)⟩

/-- C6: when a chunk's category column cannot be resolved, or neither
identifier column can, processing that chunk yields a schema error, and the
whole run aborts there: the state of the already-committed chunks is
returned unchanged and no remaining chunk is processed. -/
theorem claim6_schema_error (s : DBState) (c : Chunk) (cs : List Chunk)
    (h : (resolveCols c.headers).parent_type = none ∨
         ((resolveCols c.headers).incident_id = none ∧
          (resolveCols c.headers).case_number = none)) :
    isSchemaError (processChunk s c) = true ∧
    runFile s (c :: cs) = (s, errOf (processChunk s c)) := by
  by_cases h1 : (resolveCols c.headers).parent_type = none
  · have hp : processChunk s c = .error
        (.schemaError "Could not find Parent Incident Type column.") := by
      unfold processChunk
      rw [if_pos h1]
    simp [runFile, hp, isSchemaError, errOf]
  · have h2 := h.resolve_left h1
    have hp : processChunk s c = .error (.schemaError
        "Could not find Incident ID or Case Number column (need one as primary key).") := by
      unfold processChunk
      rw [if_neg h1, if_pos h2]
    simp [runFile, hp, isSchemaError, errOf]

theorem claim6_witness :
    (isSchemaError (processChunk initState badChunk) = true ∧
     runFile initState [badChunk]
       = (initState, errOf (processChunk initState badChunk))) ∧
    (isSchemaError (processChunk initState badChunk2) = true ∧
     runFile initState [badChunk2]
       = (initState, errOf (processChunk initState badChunk2))) :=
  ⟨claim6_schema_error initState badChunk [] (Or.inl (by decide)),
   claim6_schema_error initState badChunk2 [] (Or.inr ⟨by decide, by decide⟩)⟩

theorem mem_insertSorted (a x : String) :
    ∀ (l : List String), a ∈ insertSorted x l ↔ a = x ∨ a ∈ l
  | [] => by simp [insertSorted]
  | y :: ys => by
    unfold insertSorted
    by_cases hle : x ≤ y
    · rw [if_pos hle]
      simp [List.mem_cons]
    · rw [if_neg hle]
      simp only [List.mem_cons, mem_insertSorted a x ys]
      tauto

theorem mem_sortStrings (a : String) :
    ∀ (l : List String), a ∈ sortStrings l ↔ a ∈ l
  | [] => by simp [sortStrings]
  | x :: xs => by
    rw [show sortStrings (x :: xs) = insertSorted x (sortStrings xs) from rfl,
      mem_insertSorted, mem_sortStrings a xs, List.mem_cons]

theorem mem_distinctSorted (v : String) (vals : List (Option String)) :
    v ∈ distinctSorted vals ↔ some v ∈ vals := by
  unfold distinctSorted
  rw [mem_sortStrings, List.mem_dedup, List.mem_filterMap]
  constructor
  · rintro ⟨a, ha, rfl⟩
    exact ha
  · intro h
    exact ⟨some v, h, rfl⟩

theorem mem_insertAbsent (a v : String) (d : List String) :
    a ∈ insertAbsent d v ↔ a ∈ d ∨ a = v := by
  unfold insertAbsent
  by_cases h : v ∈ d
  · rw [if_pos h]
    constructor
    · exact Or.inl
    · rintro (h1 | rfl)
      · exact h1
      · exact h
  · rw [if_neg h]
    simp [List.mem_append]

theorem mem_foldl_insertAbsent_left (a : String) :
    ∀ (xs d : List String), a ∈ d → a ∈ xs.foldl insertAbsent d
  | [], _, h => h
  | x :: xs, d, h =>
    mem_foldl_insertAbsent_left a xs _ ((mem_insertAbsent a x d).2 (Or.inl h))

theorem mem_foldl_insertAbsent_right (a : String) :
    ∀ (xs d : List String), a ∈ xs → a ∈ xs.foldl insertAbsent d
  | [], _, h => absurd h (List.not_mem_nil a)
  | x :: xs, d, h => by
    rcases List.mem_cons.1 h with rfl | h'
    · exact mem_foldl_insertAbsent_left a xs _
        ((mem_insertAbsent a a d).2 (Or.inr rfl))
    · exact mem_foldl_insertAbsent_right a xs _ h'

theorem upsert_dim_mem {v : String} {vs : List (Option String)}
    (d : List String) (h : some v ∈ vs) : v ∈ upsert_dim d vs :=
  mem_foldl_insertAbsent_right v _ d ((mem_distinctSorted v vs).2 h)

theorem idxFrom_isSome (x : String) :
    ∀ (d : List String), x ∈ d → ∀ n, (idxFrom x d n).isSome
  | [], h, _ => absurd h (List.not_mem_nil x)
  | y :: ys, h, n => by
    unfold idxFrom
    by_cases he : y = x
    · rw [if_pos he]
      rfl
    · rw [if_neg he]
      rcases List.mem_cons.1 h with rfl | h'
      · exact absurd rfl he
      · exact idxFrom_isSome x ys h' (n + 1)

theorem idOf_isSome {x : String} {d : List String} (h : x ∈ d) :
    (idOf d x).isSome :=
  idxFrom_isSome x d h 1

theorem idxFrom_append (x : String) :
    ∀ (d : List String), x ∈ d → ∀ (u : List String) (n : Nat),
      idxFrom x (d ++ u) n = idxFrom x d n
  | [], h, _, _ => absurd h (List.not_mem_nil x)
  | y :: ys, h, u, n => by
    rw [List.cons_append]
    unfold idxFrom
    by_cases he : y = x
    · rw [if_pos he, if_pos he]
    · rw [if_neg he, if_neg he]
      rcases List.mem_cons.1 h with rfl | h'
      · exact absurd rfl he
      · exact idxFrom_append x ys h' u (n + 1)

theorem idOf_append {x : String} {d : List String} (u : List String)
    (h : x ∈ d) : idOf (d ++ u) x = idOf d x :=
  idxFrom_append x d h u 1

theorem length_filterMap_all {α β : Type} (f : α → Option β) :
    ∀ (l : List α), (∀ x ∈ l, (f x).isSome) →
      (l.filterMap f).length = l.length
  | [], _ => rfl
  | x :: xs, h => by
    rw [List.filterMap_cons]
    cases hf : f x with
    | none =>
      have hx := h x (List.mem_cons_self x xs)
      rw [hf] at hx
      cases hx
    | some b =>
      simp [length_filterMap_all f xs (fun y hy => h y (List.mem_cons_of_mem x hy))]

/-- C10: for every surviving row the parent-type lookup against the freshly
upserted and reloaded mapping succeeds, so the skip branch of the insert loop
is unreachable and each surviving row produces exactly one fact row and one
label row. -/
theorem claim10_no_skip (s : DBState) (rows : List RawRow) :
    (∀ r ∈ prepRows rows,
      (emitRow (idOf (upsertAll s.dims (prepRows rows)).parent_types)
        (idOf (upsertAll s.dims (prepRows rows)).day_of_week_dim)
        (idOf (upsertAll s.dims (prepRows rows)).police_district_dim)
        (idOf (upsertAll s.dims (prepRows rows)).neighborhood_dim) r).isSome) ∧
    (chunkWrites s rows).length = (prepRows rows).length := by
  have key : ∀ r ∈ prepRows rows,
      (emitRow (idOf (upsertAll s.dims (prepRows rows)).parent_types)
        (idOf (upsertAll s.dims (prepRows rows)).day_of_week_dim)
        (idOf (upsertAll s.dims (prepRows rows)).police_district_dim)
        (idOf (upsertAll s.dims (prepRows rows)).neighborhood_dim) r).isSome := by
    intro r hr
    have hpt : r.parent_type.isSome := by
      obtain ⟨r₁, -, rfl, -, h2⟩ := mem_prepRows hr
      exact h2
    obtain ⟨p, hp⟩ := Option.isSome_iff_exists.1 hpt
    have hmem : p ∈ (upsertAll s.dims (prepRows rows)).parent_types :=
      upsert_dim_mem _ (List.mem_map.2 ⟨r, hr, hp⟩)
    obtain ⟨pid, hpid⟩ := Option.isSome_iff_exists.1 (idOf_isSome hmem)
    unfold emitRow
    rw [show optLookup (idOf (upsertAll s.dims (prepRows rows)).parent_types)
          r.parent_type
        = idOf (upsertAll s.dims (prepRows rows)).parent_types p by
      rw [hp]
      rfl]
    rw [hpid]
    rfl
  refine ⟨key, ?_⟩
  unfold chunkWrites emitRows
  exact length_filterMap_all _ _ key

theorem claim10_witness :
    (chunkWrites initState [w1row]).length = (prepRows [w1row]).length ∧
    (emitRow (idOf (upsertAll initState.dims (prepRows [w1row])).parent_types)
      (idOf (upsertAll initState.dims (prepRows [w1row])).day_of_week_dim)
      (idOf (upsertAll initState.dims (prepRows [w1row])).police_district_dim)
      (idOf (upsertAll initState.dims (prepRows [w1row])).neighborhood_dim)
      (normOptional (cleanKeyCols w1row))).isSome :=
  ⟨(claim10_no_skip initState [w1row]).2,
   (claim10_no_skip initState [w1row]).1 _ (by decide)⟩

theorem foldl_insertAbsent_ext :
    ∀ (xs d : List String), ∃ u, xs.foldl insertAbsent d = d ++ u ∧
      ∀ v ∈ u, v ∉ d ∧ v ∈ xs
  | [], d => ⟨[], by simp, by simp⟩
  | x :: xs, d => by
    by_cases h : x ∈ d
    · have he : insertAbsent d x = d := by
        unfold insertAbsent
        rw [if_pos h]
      rw [List.foldl_cons, he]
      obtain ⟨u, hu, hp⟩ := foldl_insertAbsent_ext xs d
      exact ⟨u, hu, fun v hv =>
        ⟨(hp v hv).1, List.mem_cons_of_mem x (hp v hv).2⟩⟩
    · have he : insertAbsent d x = d ++ [x] := by
        unfold insertAbsent
        rw [if_neg h]
      rw [List.foldl_cons, he]
      obtain ⟨u, hu, hp⟩ := foldl_insertAbsent_ext xs (d ++ [x])
      refine ⟨x :: u, by rw [hu]; simp, ?_⟩
      intro v hv
      rcases List.mem_cons.1 hv with rfl | hv'
      · exact ⟨h, List.mem_cons_self v xs⟩
      · refine ⟨fun hd => (hp v hv').1 (List.mem_append_left [x] hd), ?_⟩
        exact List.mem_cons_of_mem x (hp v hv').2

theorem nodup_foldl_insertAbsent :
    ∀ (xs d : List String), d.Nodup → (xs.foldl insertAbsent d).Nodup
  | [], _, h => h
  | x :: xs, d, h => by
    rw [List.foldl_cons]
    apply nodup_foldl_insertAbsent xs
    unfold insertAbsent
    by_cases hx : x ∈ d
    · rw [if_pos hx]
      exact h
    · rw [if_neg hx]
      rw [List.nodup_append]
      refine ⟨h, List.nodup_singleton x, ?_⟩
      intro a ha hb
      rw [List.mem_singleton] at hb
      subst hb
      exact hx ha

/-- C8: the dimension upsert appends only values of the batch that were not
already present (never touching the existing prefix, so ids of existing
names are unchanged and uniqueness is preserved), and the mapping read back
afterwards covers the full table: both the batch's values and every
previously present name resolve to an id. -/
theorem claim8_dim_upsert (d : List String) (vs : List (Option String))
    (hd : d.Nodup) :
    (∃ u, upsert_dim d vs = d ++ u ∧ ∀ v ∈ u, v ∉ d ∧ some v ∈ vs) ∧
    (upsert_dim d vs).Nodup ∧
    (∀ x ∈ d, idOf (upsert_dim d vs) x = idOf d x) ∧
    (∀ v, some v ∈ vs → (idOf (upsert_dim d vs) v).isSome) ∧
    (∀ x ∈ upsert_dim d vs, (idOf (upsert_dim d vs) x).isSome) := by
  obtain ⟨u, hu, hp⟩ := foldl_insertAbsent_ext (distinctSorted vs) d
  refine ⟨⟨u, hu, fun v hv =>
      ⟨(hp v hv).1, (mem_distinctSorted v vs).1 (hp v hv).2⟩⟩,
    nodup_foldl_insertAbsent _ _ hd, ?_, ?_, ?_⟩
  · intro x hx
    rw [show upsert_dim d vs = d ++ u from hu]
    exact idOf_append u hx
  · intro v hv
    exact idOf_isSome (upsert_dim_mem d hv)
  · intro x hx
    exact idOf_isSome hx

theorem claim8_witness :
    idOf (upsert_dim ["Assault"] [some "Theft", none, some "Assault"]) "Assault"
      = idOf ["Assault"] "Assault" ∧
    (idOf (upsert_dim ["Assault"] [some "Theft", none, some "Assault"])
      "Theft").isSome ∧
    (upsert_dim ["Assault"] [some "Theft", none, some "Assault"]).Nodup :=
  ⟨(claim8_dim_upsert ["Assault"] [some "Theft", none, some "Assault"]
      (by decide)).2.2.1 "Assault" (by decide),
   (claim8_dim_upsert ["Assault"] [some "Theft", none, some "Assault"]
      (by decide)).2.2.2.1 "Theft" (by decide),
   (claim8_dim_upsert ["Assault"] [some "Theft", none, some "Assault"]
      (by decide)).2.1⟩

theorem storeAll_apply {α : Type} (key : α → String) :
    ∀ (ws : List α) (m : String → Option α) (k : String),
      storeAll key m ws k = (ws.reverse.find? (fun w => key w == k)).or (m k)
  | [], _, _ => rfl
  | w :: ws, m, k => by
    show storeAll key (Function.update m (key w) (some w)) ws k = _
    rw [storeAll_apply key ws _ k, List.reverse_cons, List.find?_append]
    cases hf : ws.reverse.find? (fun w => key w == k) with
    | some w' => rfl
    | none =>
      by_cases hk : key w = k
      · simp [Function.update_apply, hk, Option.or, List.find?]
      · simp only [Function.update_apply, Option.or, List.find?,
          if_neg (Ne.symm hk)]
        rw [show (key w == k) = false from beq_eq_false_iff_ne.2 hk]

theorem storeAll_idem {α : Type} (key : α → String) (m : String → Option α)
    (ws : List α) :
    storeAll key (storeAll key m ws) ws = storeAll key m ws := by
  funext k
  rw [storeAll_apply, storeAll_apply]
  cases hf : ws.reverse.find? (fun w => key w == k) with
  | some w => rfl
  | none => rfl

theorem storeAll_append {α : Type} (key : α → String) (m : String → Option α)
    (a b : List α) :
    storeAll key m (a ++ b) = storeAll key (storeAll key m a) b := by
  unfold storeAll
  rw [List.foldl_append]

theorem optLookup_congr {m1 m2 : String → Option Nat} {x : Option String}
    (h : ∀ v, x = some v → m1 v = m2 v) :
    optLookup m1 x = optLookup m2 x := by
  cases x with
  | none => rfl
  | some v => exact h v rfl

theorem emitRow_congr {pm1 dm1 pdm1 nm1 pm2 dm2 pdm2 nm2 : String → Option Nat}
    {r : RawRow}
    (hp : optLookup pm1 r.parent_type = optLookup pm2 r.parent_type)
    (hd : optLookup dm1 r.day_of_week = optLookup dm2 r.day_of_week)
    (hq : optLookup pdm1 r.police_district = optLookup pdm2 r.police_district)
    (hn : optLookup nm1 r.neighborhood = optLookup nm2 r.neighborhood) :
    emitRow pm1 dm1 pdm1 nm1 r = emitRow pm2 dm2 pdm2 nm2 r := by
  unfold emitRow
  rw [hp, hd, hq, hn]

theorem dimsExt_refl (D : Dims) : DimsExt D D :=
  ⟨⟨[], by simp⟩, ⟨[], by simp⟩, ⟨[], by simp⟩, ⟨[], by simp⟩⟩

theorem dimsExt_trans {D E G : Dims} (h1 : DimsExt D E) (h2 : DimsExt E G) :
    DimsExt D G := by
  obtain ⟨⟨u1, e1⟩, ⟨u2, e2⟩, ⟨u3, e3⟩, ⟨u4, e4⟩⟩ := h1
  obtain ⟨⟨v1, f1⟩, ⟨v2, f2⟩, ⟨v3, f3⟩, ⟨v4, f4⟩⟩ := h2
  exact ⟨⟨u1 ++ v1, by rw [f1, e1, List.append_assoc]⟩,
         ⟨u2 ++ v2, by rw [f2, e2, List.append_assoc]⟩,
         ⟨u3 ++ v3, by rw [f3, e3, List.append_assoc]⟩,
         ⟨u4 ++ v4, by rw [f4, e4, List.append_assoc]⟩⟩

theorem upsert_dim_ext (d : List String) (vs : List (Option String)) :
    ∃ u, upsert_dim d vs = d ++ u :=
  ⟨(foldl_insertAbsent_ext (distinctSorted vs) d).choose,
   (foldl_insertAbsent_ext (distinctSorted vs) d).choose_spec.1⟩

theorem upsertAll_ext (D : Dims) (surv : List RawRow) :
    DimsExt D (upsertAll D surv) :=
  ⟨upsert_dim_ext _ _, upsert_dim_ext _ _, upsert_dim_ext _ _, upsert_dim_ext _ _⟩

theorem upsert_dim_noop (d : List String) (vs : List (Option String))
    (h : ∀ v, some v ∈ vs → v ∈ d) :
    upsert_dim d vs = d := by
  have key : ∀ (xs d2 : List String), (∀ v ∈ xs, v ∈ d2) →
      xs.foldl insertAbsent d2 = d2 := by
    intro xs
    induction xs with
    | nil => intro d2 _; rfl
    | cons x xs ih =>
      intro d2 hall
      rw [List.foldl_cons, show insertAbsent d2 x = d2 from by
        unfold insertAbsent
        rw [if_pos (hall x (List.mem_cons_self x xs))]]
      exact ih d2 (fun v hv => hall v (List.mem_cons_of_mem x hv))
  exact key _ d (fun v hv => h v ((mem_distinctSorted v vs).1 hv))

theorem covered_upsertAll (D : Dims) (surv : List RawRow) :
    Covered (upsertAll D surv) surv := by
  refine ⟨?_, ?_, ?_, ?_⟩ <;>
  · intro r hr p hp
    exact upsert_dim_mem _ (List.mem_map.2 ⟨r, hr, hp⟩)

theorem covered_mono {D E : Dims} {surv : List RawRow}
    (hc : Covered D surv) (he : DimsExt D E) : Covered E surv := by
  obtain ⟨h1, h2, h3, h4⟩ := hc
  obtain ⟨⟨u1, e1⟩, ⟨u2, e2⟩, ⟨u3, e3⟩, ⟨u4, e4⟩⟩ := he
  refine ⟨?_, ?_, ?_, ?_⟩
  · intro r hr p hp
    rw [e1]
    exact List.mem_append_left _ (h1 r hr p hp)
  · intro r hr p hp
    rw [e2]
    exact List.mem_append_left _ (h2 r hr p hp)
  · intro r hr p hp
    rw [e3]
    exact List.mem_append_left _ (h3 r hr p hp)
  · intro r hr p hp
    rw [e4]
    exact List.mem_append_left _ (h4 r hr p hp)

theorem upsertAll_noop {D : Dims} {surv : List RawRow}
    (hc : Covered D surv) : upsertAll D surv = D := by
  obtain ⟨h1, h2, h3, h4⟩ := hc
  cases D with
  | mk a b c d =>
    unfold upsertAll
    simp only [Dims.mk.injEq]
    refine ⟨?_, ?_, ?_, ?_⟩
    · apply upsert_dim_noop
      intro v hv
      obtain ⟨r, hr, hre⟩ := List.mem_map.1 hv
      exact h1 r hr v hre
    · apply upsert_dim_noop
      intro v hv
      obtain ⟨r, hr, hre⟩ := List.mem_map.1 hv
      exact h2 r hr v hre
    · apply upsert_dim_noop
      intro v hv
      obtain ⟨r, hr, hre⟩ := List.mem_map.1 hv
      exact h3 r hr v hre
    · apply upsert_dim_noop
      intro v hv
      obtain ⟨r, hr, hre⟩ := List.mem_map.1 hv
      exact h4 r hr v hre

theorem emitRows_ext {D E : Dims} {surv : List RawRow}
    (hc : Covered D surv) (he : DimsExt D E) :
    emitRows D surv = emitRows E surv := by
  unfold emitRows
  apply List.filterMap_congr
  intro r hr
  obtain ⟨h1, h2, h3, h4⟩ := hc
  obtain ⟨⟨u1, e1⟩, ⟨u2, e2⟩, ⟨u3, e3⟩, ⟨u4, e4⟩⟩ := he
  apply emitRow_congr
  · apply optLookup_congr
    intro v hv
    rw [e1]
    exact (idOf_append u1 (h1 r hr v hv)).symm
  · apply optLookup_congr
    intro v hv
    rw [e2]
    exact (idOf_append u2 (h2 r hr v hv)).symm
  · apply optLookup_congr
    intro v hv
    rw [e3]
    exact (idOf_append u3 (h3 r hr v hv)).symm
  · apply optLookup_congr
    intro v hv
    rw [e4]
    exact (idOf_append u4 (h4 r hr v hv)).symm

theorem processRows_dims (s : DBState) (rows : List RawRow) :
    (processRows s rows).dims = upsertAll s.dims (prepRows rows) := rfl

theorem runRows_cons (s : DBState) (rows : List RawRow)
    (l : List (List RawRow)) :
    runRows s (rows :: l) = runRows (processRows s rows) l := rfl

theorem runRows_dims_ext :
    ∀ (l : List (List RawRow)) (s : DBState),
      DimsExt s.dims (runRows s l).dims
  | [], _ => dimsExt_refl _
  | rows :: l, s =>
    dimsExt_trans (upsertAll_ext s.dims (prepRows rows))
      (runRows_dims_ext l (processRows s rows))

theorem all_covered_run :
    ∀ (l : List (List RawRow)) (s : DBState),
      AllCovered (runRows s l).dims l
  | [], _ => fun rows h => absurd h (List.not_mem_nil rows)
  | rows :: l, t => by
    intro r2 h2
    rcases List.mem_cons.1 h2 with rfl | h'
    · exact covered_mono (covered_upsertAll t.dims (prepRows r2))
        (runRows_dims_ext l (processRows t r2))
    · exact all_covered_run l (processRows t rows) r2 h'

theorem writesList_cons (s : DBState) (rows : List RawRow)
    (l : List (List RawRow)) :
    writesList s (rows :: l)
      = chunkWrites s rows ++ writesList (processRows s rows) l := rfl

theorem fixedWrites_cons (D : Dims) (rows : List RawRow)
    (l : List (List RawRow)) :
    fixedWrites D (rows :: l)
      = emitRows D (prepRows rows) ++ fixedWrites D l := rfl

theorem runRows_tables :
    ∀ (l : List (List RawRow)) (s : DBState),
      (runRows s l).incidents = storeAll (fun f => f.incident_id) s.incidents
        ((writesList s l).map Prod.fst) ∧
      (runRows s l).labels = storeAll (fun lb => lb.incident_id) s.labels
        ((writesList s l).map Prod.snd)
  | [], _ => ⟨rfl, rfl⟩
  | rows :: l, s => by
    constructor
    · rw [runRows_cons, (runRows_tables l (processRows s rows)).1,
        writesList_cons, List.map_append, storeAll_append]
      rfl
    · rw [runRows_cons, (runRows_tables l (processRows s rows)).2,
        writesList_cons, List.map_append, storeAll_append]
      rfl

theorem writesList_fixed :
    ∀ (l : List (List RawRow)) (s : DBState) (E : Dims),
      DimsExt (runRows s l).dims E → writesList s l = fixedWrites E l
  | [], _, _, _ => rfl
  | rows :: l, s, E, hext => by
    have hextl : DimsExt (runRows (processRows s rows) l).dims E := hext
    have h1 : chunkWrites s rows = emitRows E (prepRows rows) := by
      unfold chunkWrites
      exact emitRows_ext (covered_upsertAll s.dims (prepRows rows))
        (dimsExt_trans (runRows_dims_ext l (processRows s rows)) hextl)
    rw [writesList_cons, fixedWrites_cons, h1,
      writesList_fixed l (processRows s rows) E hextl]

theorem runRows_fixed :
    ∀ (l : List (List RawRow)) (t : DBState), AllCovered t.dims l →
      runRows t l = ⟨t.dims,
        storeAll (fun f => f.incident_id) t.incidents
          ((fixedWrites t.dims l).map Prod.fst),
        storeAll (fun lb => lb.incident_id) t.labels
          ((fixedWrites t.dims l).map Prod.snd)⟩
  | [], t, _ => rfl
  | rows :: l, t, hall => by
    have hcov : Covered t.dims (prepRows rows) :=
      hall rows (List.mem_cons_self rows l)
    have hnoop : upsertAll t.dims (prepRows rows) = t.dims :=
      upsertAll_noop hcov
    have hcw : chunkWrites t rows = emitRows t.dims (prepRows rows) := by
      unfold chunkWrites
      rw [hnoop]
    have hdt : (processRows t rows).dims = t.dims := by
      rw [processRows_dims, hnoop]
    have hall' : AllCovered (processRows t rows).dims l := by
      rw [hdt]
      intro r2 h2
      exact hall r2 (List.mem_cons_of_mem rows h2)
    rw [runRows_cons, runRows_fixed l (processRows t rows) hall', hdt]
    simp only [DBState.mk.injEq, true_and]
    refine ⟨?_, ?_⟩
    · rw [show (processRows t rows).incidents
          = storeAll (fun f => f.incident_id) t.incidents
              ((chunkWrites t rows).map Prod.fst) from rfl, hcw,
        fixedWrites_cons, List.map_append, storeAll_append]
    · rw [show (processRows t rows).labels
          = storeAll (fun lb => lb.incident_id) t.labels
              ((chunkWrites t rows).map Prod.snd) from rfl, hcw,
        fixedWrites_cons, List.map_append, storeAll_append]

theorem runRows_idem (s : DBState) (l : List (List RawRow)) :
    runRows (runRows s l) l = runRows s l := by
  rw [runRows_fixed l (runRows s l) (all_covered_run l s),
    ← writesList_fixed l s _ (dimsExt_refl _)]
  have hinc : storeAll (fun f => f.incident_id) (runRows s l).incidents
      ((writesList s l).map Prod.fst) = (runRows s l).incidents := by
    rw [(runRows_tables l s).1, storeAll_idem]
  have hlab : storeAll (fun lb => lb.incident_id) (runRows s l).labels
      ((writesList s l).map Prod.snd) = (runRows s l).labels := by
    rw [(runRows_tables l s).2, storeAll_idem]
  rw [hinc, hlab]

theorem runFile_cons (s : DBState) (c : Chunk) (cs : List Chunk) :
    runFile s (c :: cs) = match processChunk s c with
      | .error e => (s, some e)
      | .ok s' => runFile s' cs := rfl

theorem processChunk_good {s : DBState} {c : Chunk} (h : goodChunk c) :
    processChunk s c = .ok (processRows s (maskedRows c)) := by
  unfold processChunk
  rw [if_neg h.1, if_neg h.2]

theorem runFile_good :
    ∀ (cs : List Chunk) (s : DBState), (∀ c ∈ cs, goodChunk c) →
      runFile s cs = (runRows s (cs.map maskedRows), none)
  | [], _, _ => rfl
  | c :: cs, s, h => by
    rw [runFile_cons, processChunk_good (h c (List.mem_cons_self c cs))]
    show runFile (processRows s (maskedRows c)) cs = _
    rw [runFile_good cs _ (fun c2 h2 => h c2 (List.mem_cons_of_mem c h2))]
    rfl

theorem runFile_ok_good :
    ∀ (cs : List Chunk) (s : DBState), (runFile s cs).2 = none →
      ∀ c ∈ cs, goodChunk c
  | [], _, _, c, hc => absurd hc (List.not_mem_nil c)
  | c :: cs, s, h, c2, hc2 => by
    by_cases h1 : (resolveCols c.headers).parent_type = none
    · exfalso
      rw [runFile_cons, show processChunk s c = .error
          (.schemaError "Could not find Parent Incident Type column.") from by
        unfold processChunk
        rw [if_pos h1]] at h
      simp at h
    · by_cases h2 : (resolveCols c.headers).incident_id = none ∧
          (resolveCols c.headers).case_number = none
      · exfalso
        rw [runFile_cons, show processChunk s c = .error (.schemaError
            "Could not find Incident ID or Case Number column (need one as primary key).")
            from by
          unfold processChunk
          rw [if_neg h1, if_pos h2]] at h
        simp at h
      · have hg : goodChunk c := ⟨h1, h2⟩
        rcases List.mem_cons.1 hc2 with rfl | hc'
        · exact hg
        · apply runFile_ok_good cs (processRows s (maskedRows c)) _ c2 hc'
          rw [runFile_cons, processChunk_good hg] at h
          exact h

/-- C4: a run that finishes without error is idempotent: running the
normalizer again over the same chunk list leaves the final fact, label and
dimension tables exactly as after the first run, because INSERT OR REPLACE
is last-write-wins on the identifier (second conjunct) and the dimension
upsert adds nothing the second time. -/
theorem claim4_idempotent (s : DBState) (cs : List Chunk)
    (h : (runFile s cs).2 = none) :
    runFile (runFile s cs).1 cs = runFile s cs ∧
    (∀ (m : String → Option FactRow) (ws : List FactRow) (k : String),
      storeAll (fun f => f.incident_id) m ws k =
        (ws.reverse.find? (fun w => w.incident_id == k)).or (m k)) := by
  have hg := runFile_ok_good cs s h
  have h1 := runFile_good cs s hg
  constructor
  · rw [h1]
    show runFile (runRows s (cs.map maskedRows)) cs = _
    rw [runFile_good cs _ hg, runRows_idem]
  · intro m ws k
    exact storeAll_apply (fun f => f.incident_id) ws m k

theorem claim4_witness :
    runFile (runFile initState [wChunk]).1 [wChunk]
      = runFile initState [wChunk] :=
  (claim4_idempotent initState [wChunk] (by decide)).1
